import Mathlib

/-!
Verification of the webhook-signature and resilient-HTTP-client core of the
Alloy n8n integration.  The definitions below are shallow embeddings of the
TypeScript functions in `src/nodes/Alloy/utils/signatureUtils.ts`,
`src/nodes/Alloy/transport/documentHandler.ts` and the trigger/webhook
handler.  Bytes are `Nat` values below 256; 32-bit words are `Nat` reduced
modulo 2^32; JavaScript `Date.now()` is passed explicitly as a `now`
parameter; fallible behaviour is modelled with `Option`/`Except`.
-/

namespace Alloy

/-! ### Bytes and UTF-8 (Node `Buffer.from(string)`) -/

/-- UTF-8 encoding of a single character, as produced by Node's
`Buffer.from(string, 'utf8')`. -/
def utf8Bytes (c : Char) : List Nat :=
  let n := c.toNat
  if n < 128 then [n]
  else if n < 2048 then
    [192 ||| (n >>> 6), 128 ||| (n &&& 63)]
  else if n < 65536 then
    [224 ||| (n >>> 12), 128 ||| ((n >>> 6) &&& 63), 128 ||| (n &&& 63)]
  else
    [240 ||| (n >>> 18), 128 ||| ((n >>> 12) &&& 63),
     128 ||| ((n >>> 6) &&& 63), 128 ||| (n &&& 63)]

/-- UTF-8 byte sequence of a string. -/
def strBytes (s : String) : List Nat := (s.data.map utf8Bytes).flatten

/-! ### SHA-256 (Node `crypto`, modelled bit-for-bit from FIPS 180-4) -/

/-- Reduction to a 32-bit word. -/
def w32 (n : Nat) : Nat := n % 4294967296

/-- Right rotation of a 32-bit word. -/
def rotr32 (k x : Nat) : Nat := w32 ((x >>> k) ||| (x <<< (32 - k)))

/-- SHA-256 round constants (FIPS 180-4, written in decimal). -/
def sha256K : List Nat :=
  [1116352408, 1899447441, 3049323471, 3921009573, 961987163, 1508970993,
   2453635748, 2870763221, 3624381080, 310598401, 607225278, 1426881987,
   1925078388, 2162078206, 2614888103, 3248222580, 3835390401, 4022224774,
   264347078, 604807628, 770255983, 1249150122, 1555081692, 1996064986,
   2554220882, 2821834349, 2952996808, 3210313671, 3336571891, 3584528711,
   113926993, 338241895, 666307205, 773529912, 1294757372, 1396182291,
   1695183700, 1986661051, 2177026350, 2456956037, 2730485921, 2820302411,
   3259730800, 3345764771, 3516065817, 3600352804, 4094571909, 275423344,
   430227734, 506948616, 659060556, 883997877, 958139571, 1322822218,
   1537002063, 1747873779, 1955562222, 2024104815, 2227730452, 2361852424,
   2428436474, 2756734187, 3204031479, 3329325298]

/-- Working state: the eight 32-bit registers of SHA-256. -/
structure Hash8 where
  a : Nat
  b : Nat
  c : Nat
  d : Nat
  e : Nat
  f : Nat
  g : Nat
  h : Nat

/-- Initial hash value of SHA-256 (in decimal). -/
def sha256InitH : Hash8 :=
  ⟨1779033703, 3144134277, 1013904242, 2773480762,
   1359893119, 2600822924, 528734635, 1541459225⟩

/-- Lower-case sigma-0 message-schedule function. -/
def schedSig0 (x : Nat) : Nat := rotr32 7 x ^^^ rotr32 18 x ^^^ (x >>> 3)

/-- Lower-case sigma-1 message-schedule function. -/
def schedSig1 (x : Nat) : Nat := rotr32 17 x ^^^ rotr32 19 x ^^^ (x >>> 10)

/-- Upper-case sigma-0 compression function. -/
def mainSig0 (x : Nat) : Nat := rotr32 2 x ^^^ rotr32 13 x ^^^ rotr32 22 x

/-- Upper-case sigma-1 compression function. -/
def mainSig1 (x : Nat) : Nat := rotr32 6 x ^^^ rotr32 11 x ^^^ rotr32 25 x

/-- First sixteen big-endian words of a 64-byte block. -/
def w16 (block : List Nat) : List Nat :=
  (List.range 16).map fun i =>
    (block.getD (4 * i) 0) <<< 24 ||| (block.getD (4 * i + 1) 0) <<< 16 |||
    (block.getD (4 * i + 2) 0) <<< 8 ||| block.getD (4 * i + 3) 0

/-- Extends the message schedule; `rw` holds the words produced so far in
reverse order. -/
def extendW : Nat → List Nat → List Nat
  | 0, rw => rw.reverse
  | k + 1, rw =>
    let nw := w32 (schedSig1 (rw.getD 1 0) + rw.getD 6 0 + schedSig0 (rw.getD 14 0) + rw.getD 15 0)
    extendW k (nw :: rw)

/-- Full 64-word message schedule of a block. -/
def msgSchedule (block : List Nat) : List Nat := extendW 48 (w16 block).reverse

/-- One compression round; `kw` is the pair of round constant and schedule word. -/
def sha256Round (s : Hash8) (kw : Nat × Nat) : Hash8 :=
  let ch := (s.e &&& s.f) ^^^ ((4294967295 ^^^ s.e) &&& s.g)
  let maj := (s.a &&& s.b) ^^^ (s.a &&& s.c) ^^^ (s.b &&& s.c)
  let t1 := w32 (s.h + mainSig1 s.e + ch + kw.1 + kw.2)
  let t2 := w32 (mainSig0 s.a + maj)
  ⟨w32 (t1 + t2), s.a, s.b, s.c, w32 (s.d + t1), s.e, s.f, s.g⟩

/-- Compression of one 64-byte block into the running state. -/
def compressBlock (st : Hash8) (block : List Nat) : Hash8 :=
  let fin := (sha256K.zip (msgSchedule block)).foldl sha256Round st
  ⟨w32 (st.a + fin.a), w32 (st.b + fin.b), w32 (st.c + fin.c), w32 (st.d + fin.d),
   w32 (st.e + fin.e), w32 (st.f + fin.f), w32 (st.g + fin.g), w32 (st.h + fin.h)⟩

/-- Big-endian 8-byte encoding of a length in bits. -/
def be64 (n : Nat) : List Nat :=
  [(n >>> 56) &&& 255, (n >>> 48) &&& 255, (n >>> 40) &&& 255, (n >>> 32) &&& 255,
   (n >>> 24) &&& 255, (n >>> 16) &&& 255, (n >>> 8) &&& 255, n &&& 255]

/-- Big-endian 4-byte encoding of a 32-bit word. -/
def be4 (n : Nat) : List Nat :=
  [(n >>> 24) &&& 255, (n >>> 16) &&& 255, (n >>> 8) &&& 255, n &&& 255]

/-- SHA-256 padding: a 0x80 byte, zeros to 56 mod 64, then the bit length. -/
def sha256Pad (msg : List Nat) : List Nat :=
  msg ++ 128 :: List.replicate ((119 - msg.length % 64) % 64) 0 ++ be64 (msg.length * 8)

/-- Splits a byte list into successive 64-byte blocks. -/
def toBlocks (l : List Nat) : List (List Nat) :=
  if h : l = [] then []
  else l.take 64 :: toBlocks (l.drop 64)
termination_by l.length
decreasing_by
  have := List.length_pos.mpr h
  simp [List.length_drop]
  omega

/-- Byte serialization of the final hash state. -/
def hash8Bytes (s : Hash8) : List Nat :=
  be4 s.a ++ be4 s.b ++ be4 s.c ++ be4 s.d ++ be4 s.e ++ be4 s.f ++ be4 s.g ++ be4 s.h

/-- SHA-256 digest (32 bytes) of a byte sequence. -/
def sha256Bytes (msg : List Nat) : List Nat :=
  hash8Bytes ((toBlocks (sha256Pad msg)).foldl compressBlock sha256InitH)

/-- Lower-case hexadecimal digit for a value below 16: `0`-`9` then `a`-`f`. -/
def hexDigit (n : Nat) : Char :=
  if n < 10 then Char.ofNat (48 + n) else Char.ofNat (87 + n)

/-- Lower-case hexadecimal rendering of a byte sequence, as Node's
`digest('hex')`. -/
def hexOfBytes (l : List Nat) : List Char :=
  l.foldr (fun b acc => hexDigit (b >>> 4) :: hexDigit (b &&& 15) :: acc) []

/-- HMAC-SHA256 over byte sequences (RFC 2104, block size 64). -/
def hmacSha256Bytes (key msg : List Nat) : List Nat :=
  let k1 := if 64 < key.length then sha256Bytes key else key
  let k0 := k1 ++ List.replicate (64 - k1.length) 0
  sha256Bytes ((k0.map fun b => b ^^^ 92) ++ sha256Bytes ((k0.map fun b => b ^^^ 54) ++ msg))

/-- Node's `crypto.createHmac('sha256', secret).update(message).digest('hex')`:
the lower-case hex HMAC-SHA256 digest of the UTF-8 bytes. -/
def hmacSha256Hex (secret message : String) : String :=
  ⟨hexOfBytes (hmacSha256Bytes (strBytes secret) (strBytes message))⟩

theorem hash8Bytes_length (s : Hash8) : (hash8Bytes s).length = 32 := rfl

theorem sha256Bytes_length (msg : List Nat) : (sha256Bytes msg).length = 32 :=
  hash8Bytes_length _

theorem hexOfBytes_length (l : List Nat) : (hexOfBytes l).length = 2 * l.length := by
  induction l with
  | nil => rfl
  | cons b t ih => simp [hexOfBytes] at ih ⊢; omega

theorem hmacSha256Bytes_length (key msg : List Nat) :
    (hmacSha256Bytes key msg).length = 32 :=
  sha256Bytes_length _

theorem hmacSha256Hex_length (secret message : String) :
    (hmacSha256Hex secret message).length = 64 := by
  show (hexOfBytes (hmacSha256Bytes _ _)).length = 64
  rw [hexOfBytes_length, hmacSha256Bytes_length]

theorem hmacSha256Hex_ne_empty (secret message : String) :
    hmacSha256Hex secret message ≠ "" := by
  intro h
  have := hmacSha256Hex_length secret message
  rw [h] at this
  simp at this

/-! ### JavaScript helpers -/

/-- Whitespace recognised when `parseInt` skips a leading run. -/
def isJsWs (c : Char) : Bool :=
  c = ' ' || c = '\t' || c = '\n' || c = '\r'

/-- Leading decimal digits of a character list. -/
def takeDigits (cs : List Char) : List Char := cs.takeWhile (·.isDigit)

/-- Value of a list of decimal digits. -/
def digitsToNat (ds : List Char) : Nat := ds.foldl (fun a c => a * 10 + (c.toNat - 48)) 0

/-- JavaScript `parseInt(s, 10)`: skip whitespace, optional sign, then the
longest run of leading decimal digits; `none` models `NaN`. -/
def jsParseInt (s : String) : Option Int :=
  let cs := s.data.dropWhile isJsWs
  match cs with
  | '-' :: rest =>
    let ds := takeDigits rest
    if ds.isEmpty then none else some (-(digitsToNat ds : Int))
  | '+' :: rest =>
    let ds := takeDigits rest
    if ds.isEmpty then none else some (digitsToNat ds : Int)
  | _ =>
    let ds := takeDigits cs
    if ds.isEmpty then none else some (digitsToNat ds : Int)

/-! ### Signature utilities (`src/nodes/Alloy/utils/signatureUtils.ts`)

A `timestamp` argument of `some ""` behaves like `none` throughout, because
the empty string is falsy in JavaScript.  The current Unix time
`Math.floor(Date.now() / 1000)` is an explicit `now` parameter. -/

/-- Alloy signature header name. -/
def ALLOY_SIGNATURE_HEADER : String := "x-alloy-signature"

/-- Alloy timestamp header name. -/
def ALLOY_TIMESTAMP_HEADER : String := "x-alloy-timestamp"

/-- Replay-window test of `verifyWebhookSignature` (lines 42-52): when a
truthy timestamp is supplied, parse it with `parseInt` and reject when
`Math.abs(now - webhookTime) > 300`.  A `NaN` parse never exceeds 300, so it
never rejects. -/
def replayRejected (timestamp : Option String) (now : Int) : Bool :=
  match timestamp with
  | none => false
  | some ts =>
    if ts = "" then false
    else
      match jsParseInt ts with
      | none => false
      | some t => decide (300 < (now - t).natAbs)

/-- Signing string: `timestamp + "." + payload` for a truthy timestamp, else
the payload alone (lines 56 and 91). -/
def signingString (payload : String) (timestamp : Option String) : String :=
  match timestamp with
  | some ts => if ts = "" then payload else ts ++ "." ++ payload
  | none => payload

/-- Embedding of `verifyWebhookSignature`: falsy payload/signature/secret fail
closed; then the replay check; then HMAC recomputation and the
`timingSafeEqual` comparison of the UTF-8 byte buffers, with a length
mismatch failing first.  The `try/catch` never fires in this total model. -/
def verifyWebhookSignature (payload signature secret : String)
    (timestamp : Option String) (now : Int) : Bool :=
  if payload = "" ∨ signature = "" ∨ secret = "" then false
  else if replayRejected timestamp now then false
  else
    let expectedSignature := hmacSha256Hex secret (signingString payload timestamp)
    let sigBuffer := strBytes signature
    let expectedBuffer := strBytes expectedSignature
    if sigBuffer.length ≠ expectedBuffer.length then false
    else sigBuffer == expectedBuffer

/-- Embedding of `generateWebhookSignature` (lines 85-97). -/
def generateWebhookSignature (payload secret : String)
    (timestamp : Option String) : String :=
  hmacSha256Hex secret (signingString payload timestamp)

/-- Value stored under a header name: a string or a list of strings; an
absent key is modelled by a failing lookup. -/
inductive HeaderValue
  | str (s : String)
  | strs (l : List String)
deriving DecidableEq

/-- Header maps as association lists keyed by exact name. -/
def headerLookup (headers : List (String × HeaderValue)) (name : String) :
    Option HeaderValue :=
  (headers.find? fun p => p.1 = name).map Prod.snd

/-- JavaScript truthiness of `headers[name]`: absent and empty-string values
are falsy; arrays (even empty ones) are truthy. -/
def headerTruthy : Option HeaderValue → Bool
  | none => false
  | some (.str s) => !(s == "")
  | some (.strs _) => true

/-- ASCII lowering of one character, as `toLowerCase` acts on header names. -/
def jsLowerChar (c : Char) : Char :=
  if 65 ≤ c.toNat ∧ c.toNat ≤ 90 then Char.ofNat (c.toNat + 32) else c

/-- JavaScript `name.toLowerCase()` on ASCII header names. -/
def jsToLower (s : String) : String := ⟨s.data.map jsLowerChar⟩

/-- Inner `getHeader` of `extractSignatureFromHeaders` (lines 108-114):
`headers[name] || headers[name.toLowerCase()]`, then first array entry or the
value itself, with `|| null` collapsing empty strings to `null`. -/
def getHeader (headers : List (String × HeaderValue)) (name : String) :
    Option String :=
  let v1 := headerLookup headers name
  let v := if headerTruthy v1 then v1 else headerLookup headers (jsToLower name)
  match v with
  | some (.strs []) => none
  | some (.strs (s :: _)) => if s = "" then none else some s
  | some (.str s) => if s = "" then none else some s
  | none => none

/-- Result record of `extractSignatureFromHeaders`. -/
structure ExtractResult where
  signature : Option String
  timestamp : Option String
deriving DecidableEq

/-- Embedding of `extractSignatureFromHeaders` (lines 105-120). -/
def extractSignatureFromHeaders (headers : List (String × HeaderValue)) :
    ExtractResult :=
  { signature := getHeader headers ALLOY_SIGNATURE_HEADER
    timestamp := getHeader headers ALLOY_TIMESTAMP_HEADER }

/-! ### Retry helper (`src/nodes/Alloy/transport/documentHandler.ts`, lines 564-590)

The wrapped async operation is modelled as a function from the 0-indexed
attempt number to its outcome, and the run of `withRetry` is recorded as a
trace: the propagated result, the list of backoff delays slept (in order),
and the number of times the operation was invoked. -/

/-- JavaScript error value as far as `withRetry` inspects it: the
`statusCode` field, plus an opaque tag distinguishing distinct errors. -/
structure JsError where
  statusCode : Option Nat
  tag : Nat
deriving DecidableEq

/-- Observable trace of a `withRetry` run. -/
structure RetryTrace (α : Type) where
  result : Except JsError α
  delays : List Nat
  calls : Nat

/-- Loop body of `withRetry`: `fuel` counts the loop iterations still allowed
by `attempt <= maxRetries` (so it starts at `maxRetries + 1`); `last` is the
`lastError` variable, thrown if the loop ever falls through. -/
def withRetryLoop (fn : Nat → Except JsError α) (maxRetries initialDelay : Nat) :
    Nat → Nat → Option JsError → RetryTrace α
  | 0, _attempt, last => ⟨Except.error (last.getD ⟨none, 0⟩), [], 0⟩
  | fuel + 1, attempt, _last =>
    match fn attempt with
    | Except.ok v => ⟨Except.ok v, [], 1⟩
    | Except.error e =>
      if e.statusCode = some 429 ∧ attempt < maxRetries then
        let rest := withRetryLoop fn maxRetries initialDelay fuel (attempt + 1) (some e)
        ⟨rest.result, initialDelay * 2 ^ attempt :: rest.delays, rest.calls + 1⟩
      else ⟨Except.error e, [], 1⟩

/-- Embedding of `withRetry`: a `for` loop over `attempt = 0 .. maxRetries`,
retrying after a backoff of `initialDelay * 2 ^ attempt` only on errors with
`statusCode === 429` and only while `attempt < maxRetries`; any other error
is rethrown at once. -/
def withRetry (fn : Nat → Except JsError α) (maxRetries initialDelay : Nat) :
    RetryTrace α :=
  withRetryLoop fn maxRetries initialDelay (maxRetries + 1) 0 none

theorem withRetryLoop_succ (fn : Nat → Except JsError α)
    (maxRetries initialDelay fuel attempt : Nat) (last : Option JsError) :
    withRetryLoop fn maxRetries initialDelay (fuel + 1) attempt last
      = match fn attempt with
        | Except.ok v => ⟨Except.ok v, [], 1⟩
        | Except.error e =>
          if e.statusCode = some 429 ∧ attempt < maxRetries then
            let rest := withRetryLoop fn maxRetries initialDelay fuel (attempt + 1) (some e)
            ⟨rest.result, initialDelay * 2 ^ attempt :: rest.delays, rest.calls + 1⟩
          else ⟨Except.error e, [], 1⟩ := by
  rw [withRetryLoop]

/-! ### Pagination (`src/nodes/Alloy/transport/documentHandler.ts`, lines 533-559)

The axios `client.get` call is modelled by handing the response body to
`alloyApiGetPaginated` directly; the body's optional JSON fields are `Option`
valued, and numeric falsiness (`0` and absence both trigger `||` fallbacks)
is captured by `jsOrNat`. -/

/-- Requested pagination parameters (`PaginationParams`). -/
structure PaginationParams where
  page : Option Nat
  limit : Option Nat
  sort : Option String
  order : Option String
deriving DecidableEq

/-- Raw JSON response body as `alloyApiGetPaginated` inspects it. -/
structure ApiBody (α : Type) where
  data : Option (List α)
  page : Option Nat
  limit : Option Nat
  total : Option Nat
  has_more : Option Bool
deriving DecidableEq

/-- Value of `response.data.data || response.data`: the `data` array when the
wrapper exists, else the bare body. -/
inductive PagData (α : Type)
  | list (l : List α)
  | raw (body : ApiBody α)
deriving DecidableEq

/-- Pagination state returned to callers. -/
structure PaginationState where
  page : Nat
  limit : Nat
  total : Nat
  hasMore : Bool
deriving DecidableEq

/-- Shape of `AlloyApiResponse<T[]>` as produced by `alloyApiGetPaginated`. -/
structure AlloyApiResponse (α : Type) where
  success : Bool
  data : PagData α
  pagination : PaginationState
deriving DecidableEq

/-- JavaScript `x || d` for an optional number: absent and `0` are falsy. -/
def jsOrNat : Option Nat → Nat → Nat
  | some n, d => if n = 0 then d else n
  | none, d => d

/-- Embedding of `alloyApiGetPaginated`: computes the request parameters with
`page || 1` and `limit || 25` fallbacks, then maps the response body into
`{success, data, pagination}` with the fallbacks of lines 549-558. -/
def alloyApiGetPaginated (body : ApiBody α) (pagination : PaginationParams) :
    AlloyApiResponse α :=
  let paramsPage := jsOrNat pagination.page 1
  let paramsLimit := jsOrNat pagination.limit 25
  { success := true
    data := match body.data with
      | some l => PagData.list l
      | none => PagData.raw body
    pagination :=
      { page := jsOrNat body.page paramsPage
        limit := jsOrNat body.limit paramsLimit
        total := jsOrNat body.total 0
        hasMore := body.has_more.getD false } }

/-- Spread of `response.data` in `allResults.push(...response.data)`: only an
array can be spread; spreading the bare object body raises a `TypeError` in
JavaScript, modelled as `none`. -/
def spreadItems : PagData α → Option (List α)
  | PagData.list l => some l
  | PagData.raw _ => none

/-- Loop body of the `returnAll` while-loop of `executeEvaluationOperation`
(`src/unnamed/part_001`, lines 79-93): requests `{page, limit: 100}`, appends
the page's data, reads `response.pagination?.hasMore || false`, and
increments `page`.  The remote server is a function from page number to
response body; `requests` records each `(page, limit)` pair sent, in order;
`fuel` bounds the unbounded JavaScript loop, `none` standing for a run that
is still looping (or threw) within the given fuel. -/
def fetchAllLoop (server : Nat → ApiBody α) :
    Nat → Nat → List α → List (Nat × Nat) → Option (List α × List (Nat × Nat))
  | 0, _page, _acc, _requests => none
  | fuel + 1, page, acc, requests =>
    let response := alloyApiGetPaginated (server page) ⟨some page, some 100, none, none⟩
    let requests' := requests ++ [(page, 100)]
    match spreadItems response.data with
    | none => none
    | some items =>
      let acc' := acc ++ items
      if response.pagination.hasMore then fetchAllLoop server fuel (page + 1) acc' requests'
      else some (acc', requests')

/-- Whole `returnAll` traversal: starts at `page = 1` with an empty
accumulator. -/
def fetchAllPages (server : Nat → ApiBody α) (fuel : Nat) :
    Option (List α × List (Nat × Nat)) :=
  fetchAllLoop server fuel 1 [] []

/-! ### Webhook trigger (`src/unnamed/part_002`)

The webhook body is a parsed JSON object; the model keeps the fields the
handler reads — `event_type` (absent or empty is falsy) — together with the
`JSON.stringify` serialization the signature is checked against. -/

/-- Parsed webhook request body. -/
structure WebhookBody where
  event_type : Option String
  raw : String
deriving DecidableEq

/-- Result record of `validateAlloyWebhook` (`WebhookValidationResult`). -/
structure ValidationResult where
  isValid : Bool
  error : Option String
  payload : Option WebhookBody
deriving DecidableEq

/-- Payload-structure check at the end of `validateAlloyWebhook`:
`if (!payload.event_type)` fails on a missing or empty field. -/
def checkPayloadStructure (body : WebhookBody) : ValidationResult :=
  match body.event_type with
  | none => ⟨false, some "Missing event_type in webhook payload", none⟩
  | some et =>
    if et = "" then ⟨false, some "Missing event_type in webhook payload", none⟩
    else ⟨true, none, some body⟩

/-- Value of `timestamp || undefined` passed to the verifier. -/
def tsArg : Option String → Option String
  | some t => if t = "" then none else some t
  | none => none

/-- Embedding of `validateAlloyWebhook` (`src/unnamed/part_002`, lines
253-297): with a truthy secret, extract the headers, reject a missing
signature header by name, verify the signature over `JSON.stringify(body)`,
and finally check the payload structure. -/
def validateAlloyWebhook (body : WebhookBody)
    (headers : List (String × HeaderValue))
    (webhookSecret : Option String) (now : Int) : ValidationResult :=
  match webhookSecret with
  | none => checkPayloadStructure body
  | some secret =>
    if secret = "" then checkPayloadStructure body
    else
      let ext := extractSignatureFromHeaders headers
      match ext.signature with
      | none =>
        ⟨false, some ("Missing webhook signature header: " ++ ALLOY_SIGNATURE_HEADER), none⟩
      | some sig =>
        if verifyWebhookSignature body.raw sig secret (tsArg ext.timestamp) now then
          checkPayloadStructure body
        else ⟨false, some "Invalid webhook signature", none⟩

/-- Body of the HTTP response the trigger sends back. -/
inductive RespBody
  | err (error : Option String)
  | ack (received processed : Bool) (reason : Option String)
deriving DecidableEq

/-- HTTP response of the trigger's webhook method. -/
structure WebhookResponse where
  status : Nat
  body : RespBody
deriving DecidableEq

/-- Embedding of `AlloyTrigger.webhook` (`src/unnamed/part_002`, lines
151-211), restricted to its HTTP response: a failed validation yields
`400 {error}`; a non-empty event filter that excludes the delivered
`event_type` yields the acknowledge-only `200`; otherwise the processed
`200`.  The `webhookSecret` parameter stands for the credential lookup
(absent when verification is disabled or the lookup threw). -/
def alloyTriggerWebhook (events : List String) (webhookSecret : Option String)
    (headers : List (String × HeaderValue)) (body : WebhookBody)
    (now : Int) : WebhookResponse :=
  let validation := validateAlloyWebhook body headers webhookSecret now
  if !validation.isValid then ⟨400, RespBody.err validation.error⟩
  else
    let payload := validation.payload.getD body
    let et := payload.event_type.getD ""
    if !events.isEmpty && !(events.contains et) then
      ⟨200, RespBody.ack true false (some "Event type not in filter")⟩
    else ⟨200, RespBody.ack true true none⟩

/-! ### Claims about the signature verifier -/

theorem jsParseInt_empty : jsParseInt "" = none := rfl

/-- C1 (counterexample): the round-trip claim quantifies over every payload
and secret, but `verifyWebhookSignature` fails closed on a falsy payload, so
for the empty payload the verification of its own generated signature
returns `false` rather than `true`. -/
theorem verify_roundtrip_fails_on_empty_payload :
    verifyWebhookSignature "" (generateWebhookSignature "" "whsec" none) "whsec" none 0
      = false := rfl

/-- C1 (amended): for every non-empty payload and non-empty secret, verifying
the signature produced by `generateWebhookSignature` for that same payload
and secret (with no timestamp) succeeds, at any verification time. -/
theorem verify_generate_roundtrip_nonempty (payload secret : String) (now : Int)
    (hp : payload ≠ "") (hs : secret ≠ "") :
    verifyWebhookSignature payload (generateWebhookSignature payload secret none)
      secret none now = true := by
  have hne := hmacSha256Hex_ne_empty secret (signingString payload none)
  simp only [verifyWebhookSignature, generateWebhookSignature, replayRejected]
  simp [hp, hs, hne]

theorem verify_generate_roundtrip_nonempty_witness :
    ("\x7b\x7d" : String) ≠ "" ∧ ("whsec" : String) ≠ "" ∧
    verifyWebhookSignature "\x7b\x7d"
      (generateWebhookSignature "\x7b\x7d" "whsec" none) "whsec" none 1700000000
      = true :=
  ⟨by decide, by decide,
   verify_generate_roundtrip_nonempty "\x7b\x7d" "whsec" 1700000000 (by decide) (by decide)⟩

/-- C2: when the supplied timestamp parses (via `parseInt`) to an epoch
integer whose absolute distance from the verification time exceeds 300
seconds, `verifyWebhookSignature` returns `false`, whatever the candidate
signature is. -/
theorem verify_rejects_stale_timestamp (payload sig secret ts : String)
    (t now : Int) (hparse : jsParseInt ts = some t)
    (hold : 300 < (now - t).natAbs) :
    verifyWebhookSignature payload sig secret (some ts) now = false := by
  have hts : ts ≠ "" := by
    intro h
    rw [h, jsParseInt_empty] at hparse
    exact Option.noConfusion hparse
  by_cases hempty : payload = "" ∨ sig = "" ∨ secret = ""
  · simp only [verifyWebhookSignature]
    rw [if_pos hempty]
  · simp only [verifyWebhookSignature, replayRejected]
    rw [if_neg hempty, hparse]
    simp [hts, hold]

theorem verify_rejects_stale_timestamp_witness :
    jsParseInt "100" = some 100 ∧ 300 < ((1000 : Int) - 100).natAbs ∧
    verifyWebhookSignature "p" "sig" "sec" (some "100") 1000 = false :=
  ⟨by decide, by decide,
   verify_rejects_stale_timestamp "p" "sig" "sec" "100" 100 1000 (by decide) (by decide)⟩

/-- C3: whenever the payload, the candidate signature, or the secret is
empty/absent — in any combination — `verifyWebhookSignature` returns `false`;
being a total function into `Bool`, it never raises an exception on any
input. -/
theorem verify_false_on_empty_inputs (payload sig secret : String)
    (ts : Option String) (now : Int)
    (h : payload = "" ∨ sig = "" ∨ secret = "") :
    verifyWebhookSignature payload sig secret ts now = false := by
  simp only [verifyWebhookSignature]
  rw [if_pos h]

theorem verify_false_on_empty_inputs_witness :
    (("" : String) = "" ∨ ("sig" : String) = "" ∨ ("sec" : String) = "") ∧
    verifyWebhookSignature "" "sig" "sec" none 0 = false :=
  ⟨Or.inl rfl, verify_false_on_empty_inputs "" "sig" "sec" none 0 (Or.inl rfl)⟩

/-- C10: when the supplied timestamp does not parse to a number (`parseInt`
yields `NaN`), the replay rejection is skipped — the `NaN` time difference
never exceeds 300 — and the result is exactly the `timingSafeEqual`
comparison of the candidate signature's bytes against the HMAC-SHA256
lower-case hex digest of `timestamp ++ "." ++ payload`, for every
verification time `now`. -/
theorem verify_nan_timestamp_ignores_clock (payload sig secret ts : String)
    (now : Int) (hp : payload ≠ "") (hs : sig ≠ "") (hk : secret ≠ "")
    (hts : ts ≠ "") (hnan : jsParseInt ts = none) :
    verifyWebhookSignature payload sig secret (some ts) now
      = (strBytes sig == strBytes (hmacSha256Hex secret (ts ++ "." ++ payload))) := by
  have hkey : verifyWebhookSignature payload sig secret (some ts) now
      = (if (strBytes sig).length
            ≠ (strBytes (hmacSha256Hex secret (ts ++ "." ++ payload))).length
         then false
         else strBytes sig == strBytes (hmacSha256Hex secret (ts ++ "." ++ payload))) := by
    simp only [verifyWebhookSignature, replayRejected, signingString]
    rw [hnan]
    simp [hp, hs, hk, hts]
  rw [hkey]
  by_cases hlen :
      (strBytes sig).length
        = (strBytes (hmacSha256Hex secret (ts ++ "." ++ payload))).length
  · simp [hlen]
  · rw [if_pos hlen]
    cases hbeq : strBytes sig == strBytes (hmacSha256Hex secret (ts ++ "." ++ payload)) with
    | false => rfl
    | true => exact absurd (congrArg List.length (eq_of_beq hbeq)) hlen

theorem verify_nan_timestamp_ignores_clock_witness :
    jsParseInt "oops" = none ∧
    verifyWebhookSignature "p" "deadbeef" "sec" (some "oops") 1234567
      = (strBytes "deadbeef" == strBytes (hmacSha256Hex "sec" ("oops" ++ "." ++ "p"))) :=
  ⟨by decide,
   verify_nan_timestamp_ignores_clock "p" "deadbeef" "sec" "oops" 1234567
     (by decide) (by decide) (by decide) (by decide) (by decide)⟩

/-! ### Claims about header extraction -/

theorem getHeader_spec (headers : List (String × HeaderValue)) (name : String)
    (hlow : jsToLower name = name) :
    (headerLookup headers name = none → getHeader headers name = none)
    ∧ (∀ s, headerLookup headers name = some (HeaderValue.str s) → s ≠ "" →
        getHeader headers name = some s)
    ∧ (∀ s l, headerLookup headers name = some (HeaderValue.strs (s :: l)) → s ≠ "" →
        getHeader headers name = some s)
    ∧ (headerLookup headers name = some (HeaderValue.strs []) →
        getHeader headers name = none) := by
  refine ⟨?_, ?_, ?_, ?_⟩
  · intro h; simp [getHeader, h, headerTruthy, hlow]
  · intro s h hs; simp [getHeader, h, headerTruthy, hs]
  · intro s l h hs; simp [getHeader, h, headerTruthy, hs]
  · intro h; simp [getHeader, h, headerTruthy]

/-- C4 (counterexample): the claim predicts that a header stored under any
letter-casing of the name is found, but the lookup uses only the exact
(already lower-case) name and its lowercasing, so a signature stored under
`X-Alloy-Signature` is not found and the extraction yields `none` for both
fields. -/
theorem extract_misses_uppercase_header :
    extractSignatureFromHeaders [("X-Alloy-Signature", HeaderValue.str "abc")]
      = ⟨none, none⟩ := by decide

/-- C4 (amended): `extractSignatureFromHeaders` looks the headers map up only
under the exact lower-case names `x-alloy-signature` / `x-alloy-timestamp`
(the code's fallback lowercases an already lower-case constant, so other
casings are not found); a stored list yields its first entry when that entry
is non-empty (an empty list yields `null`); an absent header yields `null`
and never an exception. -/
theorem extract_exact_name_lookup (headers : List (String × HeaderValue)) :
    ((headerLookup headers ALLOY_SIGNATURE_HEADER = none →
        (extractSignatureFromHeaders headers).signature = none)
      ∧ (∀ s, headerLookup headers ALLOY_SIGNATURE_HEADER = some (HeaderValue.str s) →
          s ≠ "" → (extractSignatureFromHeaders headers).signature = some s)
      ∧ (∀ s l,
          headerLookup headers ALLOY_SIGNATURE_HEADER = some (HeaderValue.strs (s :: l)) →
          s ≠ "" → (extractSignatureFromHeaders headers).signature = some s)
      ∧ (headerLookup headers ALLOY_SIGNATURE_HEADER = some (HeaderValue.strs []) →
          (extractSignatureFromHeaders headers).signature = none))
    ∧ ((headerLookup headers ALLOY_TIMESTAMP_HEADER = none →
        (extractSignatureFromHeaders headers).timestamp = none)
      ∧ (∀ s, headerLookup headers ALLOY_TIMESTAMP_HEADER = some (HeaderValue.str s) →
          s ≠ "" → (extractSignatureFromHeaders headers).timestamp = some s)
      ∧ (∀ s l,
          headerLookup headers ALLOY_TIMESTAMP_HEADER = some (HeaderValue.strs (s :: l)) →
          s ≠ "" → (extractSignatureFromHeaders headers).timestamp = some s)
      ∧ (headerLookup headers ALLOY_TIMESTAMP_HEADER = some (HeaderValue.strs []) →
          (extractSignatureFromHeaders headers).timestamp = none)) :=
  ⟨getHeader_spec headers ALLOY_SIGNATURE_HEADER (by decide),
   getHeader_spec headers ALLOY_TIMESTAMP_HEADER (by decide)⟩

theorem extract_exact_name_lookup_witness :
    ("s1" : String) ≠ "" ∧
    (extractSignatureFromHeaders
        [("x-alloy-signature", HeaderValue.strs ["s1", "s2"])]).signature = some "s1" :=
  ⟨by decide,
   (extract_exact_name_lookup
       [("x-alloy-signature", HeaderValue.strs ["s1", "s2"])]).1.2.2.1
     "s1" ["s2"] (by decide) (by decide)⟩

/-! ### Claims about the retry helper -/

theorem withRetryLoop_err_succ {α : Type} (errs : Nat → JsError)
    (maxRetries initialDelay fuel attempt : Nat) (last : Option JsError) :
    withRetryLoop (fun n => (Except.error (errs n) : Except JsError α))
        maxRetries initialDelay (fuel + 1) attempt last
      = if (errs attempt).statusCode = some 429 ∧ attempt < maxRetries then
          let rest := withRetryLoop (fun n => (Except.error (errs n) : Except JsError α))
            maxRetries initialDelay fuel (attempt + 1) (some (errs attempt))
          ⟨rest.result, initialDelay * 2 ^ attempt :: rest.delays, rest.calls + 1⟩
        else ⟨Except.error (errs attempt), [], 1⟩ := by
  rw [withRetryLoop_succ]

theorem withRetryLoop_all429 {α : Type} (errs : Nat → JsError)
    (h429 : ∀ n, (errs n).statusCode = some 429) (maxRetries initialDelay : Nat) :
    ∀ fuel attempt, attempt + fuel = maxRetries + 1 → attempt ≤ maxRetries →
      ∀ last, withRetryLoop (fun n => (Except.error (errs n) : Except JsError α))
          maxRetries initialDelay fuel attempt last
        = ⟨Except.error (errs maxRetries),
           (List.range (fuel - 1)).map (fun i => initialDelay * 2 ^ (attempt + i)),
           fuel⟩ := by
  intro fuel
  induction fuel with
  | zero => intro attempt h1 h2 last; omega
  | succ k ih =>
    intro attempt h1 h2 last
    rw [withRetryLoop_err_succ]
    by_cases hlt : attempt < maxRetries
    · rw [if_pos ⟨h429 attempt, hlt⟩]
      obtain ⟨j, rfl⟩ : ∃ j, k = j + 1 := ⟨k - 1, by omega⟩
      rw [ih (attempt + 1) (by omega) (by omega) (some (errs attempt))]
      simp only [Nat.add_sub_cancel]
      congr 1
      rw [List.range_succ_eq_map, List.map_cons, List.map_map]
      congr 1
      apply List.map_congr_left
      intro i _
      show initialDelay * 2 ^ (attempt + 1 + i) = initialDelay * 2 ^ (attempt + (i + 1))
      have h3 : attempt + 1 + i = attempt + (i + 1) := by omega
      rw [h3]
    · have heq : attempt = maxRetries := by omega
      have hk0 : k = 0 := by omega
      subst heq; subst hk0
      rw [if_neg (by simp [hlt])]
      simp

/-- C5: for an operation that raises a 429 error on every call, `withRetry`
with `maxRetries = 3` and initial delay `d` invokes the operation exactly
4 times (1 initial + 3 retries), sleeps `d`, `2·d`, `4·d` between attempts
(`d * 2 ^ n` for the 0-indexed attempt `n`), and propagates the final
(fourth) error. -/
theorem withRetry_always429_trace {α : Type} (errs : Nat → JsError) (d : Nat)
    (h429 : ∀ n, (errs n).statusCode = some 429) :
    withRetry (fun n => (Except.error (errs n) : Except JsError α)) 3 d
      = ⟨Except.error (errs 3), [d, 2 * d, 4 * d], 4⟩ := by
  show withRetryLoop _ 3 d (3 + 1) 0 none = _
  rw [withRetryLoop_all429 errs h429 3 d (3 + 1) 0 (by omega) (by omega) none]
  congr 1
  have hr : List.range (3 + 1 - 1) = [0, 1, 2] := rfl
  rw [hr]
  simp [List.map_cons]
  refine ⟨by ring, by ring⟩

theorem withRetry_always429_trace_witness :
    (∀ n, ((fun _ : Nat => (⟨some 429, 0⟩ : JsError)) n).statusCode = some 429) ∧
    withRetry (fun _ => (Except.error ⟨some 429, 0⟩ : Except JsError Nat)) 3 1000
      = ⟨Except.error ⟨some 429, 0⟩, [1000, 2 * 1000, 4 * 1000], 4⟩ :=
  ⟨fun _ => rfl,
   withRetry_always429_trace (fun _ => ⟨some 429, 0⟩) 1000 (fun _ => rfl)⟩

/-- C6: for an operation whose first raised error does not have statusCode
429, `withRetry` invokes the operation exactly once, sleeps never, and
rethrows that same error unchanged, whatever `maxRetries` and the delay
are — only 429 errors are ever retried. -/
theorem withRetry_non429_single_attempt {α : Type} (fn : Nat → Except JsError α)
    (e : JsError) (maxRetries initialDelay : Nat)
    (h0 : fn 0 = Except.error e) (hne : e.statusCode ≠ some 429) :
    withRetry fn maxRetries initialDelay = ⟨Except.error e, [], 1⟩ := by
  show withRetryLoop fn maxRetries initialDelay (maxRetries + 1) 0 none = _
  rw [withRetryLoop_succ, h0]
  simp [hne]

theorem withRetry_non429_single_attempt_witness :
    (fun _ : Nat => (Except.error ⟨some 500, 7⟩ : Except JsError Nat)) 0
        = Except.error ⟨some 500, 7⟩ ∧
    (⟨some 500, 7⟩ : JsError).statusCode ≠ some 429 ∧
    withRetry (fun _ => (Except.error ⟨some 500, 7⟩ : Except JsError Nat)) 3 1000
      = ⟨Except.error ⟨some 500, 7⟩, [], 1⟩ :=
  ⟨rfl, by decide,
   withRetry_non429_single_attempt _ ⟨some 500, 7⟩ 3 1000 rfl (by decide)⟩

/-! ### Claims about pagination -/

/-- C7: `alloyApiGetPaginated` maps the raw body into the returned value:
`data` is the body's `data` field, or the bare body when no `data` wrapper
exists; `pagination.page` and `pagination.limit` fall back to the requested
values (`page || 1`, `limit || 25`) when absent from the body; and
`pagination.hasMore` is the body's `has_more` field, `false` when that field
is missing. -/
theorem alloyApiGetPaginated_mapping {α : Type} (body : ApiBody α)
    (pagination : PaginationParams) :
    ((∀ l, body.data = some l →
        (alloyApiGetPaginated body pagination).data = PagData.list l)
      ∧ (body.data = none →
        (alloyApiGetPaginated body pagination).data = PagData.raw body))
    ∧ ((body.page = none →
        (alloyApiGetPaginated body pagination).pagination.page
          = jsOrNat pagination.page 1)
      ∧ (body.limit = none →
        (alloyApiGetPaginated body pagination).pagination.limit
          = jsOrNat pagination.limit 25))
    ∧ ((∀ b, body.has_more = some b →
        (alloyApiGetPaginated body pagination).pagination.hasMore = b)
      ∧ (body.has_more = none →
        (alloyApiGetPaginated body pagination).pagination.hasMore = false)) := by
  refine ⟨⟨?_, ?_⟩, ⟨?_, ?_⟩, ⟨?_, ?_⟩⟩ <;> intros <;>
    simp_all [alloyApiGetPaginated, jsOrNat]

theorem alloyApiGetPaginated_mapping_witness :
    (alloyApiGetPaginated (⟨some [3], none, none, none, none⟩ : ApiBody Nat)
        ⟨some 7, some 50, none, none⟩).data = PagData.list [3] ∧
    (alloyApiGetPaginated (⟨some [3], none, none, none, none⟩ : ApiBody Nat)
        ⟨some 7, some 50, none, none⟩).pagination.page = jsOrNat (some 7) 1 ∧
    (alloyApiGetPaginated (⟨some [3], none, none, none, none⟩ : ApiBody Nat)
        ⟨some 7, some 50, none, none⟩).pagination.limit = jsOrNat (some 50) 25 ∧
    (alloyApiGetPaginated (⟨some [3], none, none, none, none⟩ : ApiBody Nat)
        ⟨some 7, some 50, none, none⟩).pagination.hasMore = false :=
  ⟨(alloyApiGetPaginated_mapping _ _).1.1 [3] rfl,
   (alloyApiGetPaginated_mapping _ _).2.1.1 rfl,
   (alloyApiGetPaginated_mapping _ _).2.1.2 rfl,
   (alloyApiGetPaginated_mapping _ _).2.2.2 rfl⟩

theorem fetchAllLoop_succ {α : Type} (server : Nat → ApiBody α)
    (fuel page : Nat) (acc : List α) (requests : List (Nat × Nat)) :
    fetchAllLoop server (fuel + 1) page acc requests
      = (let response := alloyApiGetPaginated (server page) ⟨some page, some 100, none, none⟩
         let requests' := requests ++ [(page, 100)]
         match spreadItems response.data with
         | none => none
         | some items =>
           let acc' := acc ++ items
           if response.pagination.hasMore then
             fetchAllLoop server fuel (page + 1) acc' requests'
           else some (acc', requests')) := by
  rw [fetchAllLoop]

/-- C8: against a server returning 3 pages of 100 items each and then
`hasMore: false`, the fetch-all-pages loop requests pages `(1, limit 100)`,
`(2, limit 100)`, `(3, limit 100)` in strictly increasing order, appends the
pages' data in that order, stops as soon as `hasMore` is false, and returns
exactly 300 items — having made exactly 3 requests. -/
theorem fetchAllPages_three_pages {α : Type} (server : Nat → ApiBody α)
    (l1 l2 l3 : List α) (fuel : Nat)
    (h1d : (server 1).data = some l1) (h1m : (server 1).has_more = some true)
    (h2d : (server 2).data = some l2) (h2m : (server 2).has_more = some true)
    (h3d : (server 3).data = some l3) (h3m : (server 3).has_more = some false)
    (hl1 : l1.length = 100) (hl2 : l2.length = 100) (hl3 : l3.length = 100)
    (hfuel : 3 ≤ fuel) :
    fetchAllPages server fuel
        = some (l1 ++ l2 ++ l3, [(1, 100), (2, 100), (3, 100)])
      ∧ (l1 ++ l2 ++ l3).length = 300 := by
  obtain ⟨k, rfl⟩ : ∃ k, fuel = k + 3 := ⟨fuel - 3, by omega⟩
  constructor
  · show fetchAllLoop server (k + 3) 1 [] [] = _
    rw [show k + 3 = k + 2 + 1 from rfl, fetchAllLoop_succ]
    simp only [alloyApiGetPaginated, h1d, h1m, spreadItems]
    simp only [Option.getD_some, if_true, List.nil_append]
    rw [show k + 2 = k + 1 + 1 from rfl, fetchAllLoop_succ]
    simp only [alloyApiGetPaginated, h2d, h2m, spreadItems]
    simp only [Option.getD_some, if_true]
    rw [fetchAllLoop_succ]
    simp only [alloyApiGetPaginated, h3d, h3m, spreadItems]
    simp [List.append_assoc]
  · simp [hl1, hl2, hl3]

theorem fetchAllPages_three_pages_witness :
    fetchAllPages
        (fun p => (⟨some (List.replicate 100 p), none, none, none,
          some (decide (p < 3))⟩ : ApiBody Nat)) 5
      = some (List.replicate 100 1 ++ List.replicate 100 2 ++ List.replicate 100 3,
          [(1, 100), (2, 100), (3, 100)])
    ∧ (List.replicate 100 1 ++ List.replicate 100 2
        ++ List.replicate 100 3).length = 300 :=
  fetchAllPages_three_pages
    (fun p => ⟨some (List.replicate 100 p), none, none, none, some (decide (p < 3))⟩)
    (List.replicate 100 1) (List.replicate 100 2) (List.replicate 100 3) 5
    rfl rfl rfl rfl rfl rfl (by simp) (by simp) (by simp) (by omega)

/-! ### Claims about the webhook trigger's HTTP responses -/

/-- C9: the webhook handler answers `400 {error: reason}` on validation
failure — in particular, with a configured secret and no signature header,
the error names the missing header `x-alloy-signature`, and an invalid
signature or a payload missing `event_type` also yields a `400`; it answers
`200 {received: true, processed: false, reason: "Event type not in filter"}`
when the non-empty event allowlist excludes the delivered `event_type`; and
`200 {received: true, processed: true}` on successful acceptance. -/
theorem alloyTriggerWebhook_responses (events : List String) (secret : String)
    (headers : List (String × HeaderValue)) (body : WebhookBody) (now : Int) :
    ((secret ≠ "" → (extractSignatureFromHeaders headers).signature = none →
        alloyTriggerWebhook events (some secret) headers body now
          = ⟨400, RespBody.err
              (some ("Missing webhook signature header: x-alloy-signature"))⟩)
      ∧ (∀ sig, secret ≠ "" →
          (extractSignatureFromHeaders headers).signature = some sig →
          verifyWebhookSignature body.raw sig secret
              (tsArg (extractSignatureFromHeaders headers).timestamp) now = false →
          alloyTriggerWebhook events (some secret) headers body now
            = ⟨400, RespBody.err (some "Invalid webhook signature")⟩)
      ∧ ((body.event_type = none ∨ body.event_type = some "") →
          alloyTriggerWebhook events none headers body now
            = ⟨400, RespBody.err (some "Missing event_type in webhook payload")⟩))
    ∧ ((∀ et, body.event_type = some et → et ≠ "" → events ≠ [] →
          events.contains et = false →
          alloyTriggerWebhook events none headers body now
            = ⟨200, RespBody.ack true false (some "Event type not in filter")⟩)
      ∧ (∀ et, body.event_type = some et → et ≠ "" →
          (events = [] ∨ events.contains et = true) →
          alloyTriggerWebhook events none headers body now
            = ⟨200, RespBody.ack true true none⟩)) := by
  refine ⟨⟨?_, ?_, ?_⟩, ⟨?_, ?_⟩⟩
  · intro hs hnone
    simp [alloyTriggerWebhook, validateAlloyWebhook, hs, hnone, ALLOY_SIGNATURE_HEADER]
  · intro sig hs hsig hver
    simp [alloyTriggerWebhook, validateAlloyWebhook, hs, hsig, hver]
  · intro h
    rcases h with h | h <;>
      simp [alloyTriggerWebhook, validateAlloyWebhook, checkPayloadStructure, h]
  · intro et het hne hev hcontains
    simp at hcontains
    simp [alloyTriggerWebhook, validateAlloyWebhook, checkPayloadStructure,
      het, hne, hev, hcontains]
  · intro et het hne h
    rcases h with h | h
    · simp [alloyTriggerWebhook, validateAlloyWebhook, checkPayloadStructure,
        het, hne, h]
    · simp at h
      simp [alloyTriggerWebhook, validateAlloyWebhook, checkPayloadStructure,
        het, hne, h]

theorem alloyTriggerWebhook_responses_witness :
    ("whsec" : String) ≠ "" ∧
    (extractSignatureFromHeaders ([] : List (String × HeaderValue))).signature = none ∧
    alloyTriggerWebhook [] (some "whsec") [] ⟨some "evaluation.completed", "raw"⟩ 0
      = ⟨400, RespBody.err
          (some ("Missing webhook signature header: x-alloy-signature"))⟩ :=
  ⟨by decide, rfl,
   (alloyTriggerWebhook_responses [] "whsec" [] ⟨some "evaluation.completed", "raw"⟩ 0).1.1
     (by decide) rfl⟩

end Alloy
